import Mathlib

/-!
Verification of the finance-tracker summary/export core.

The definitions below are a shallow embedding of the summary and export
code of `app.py`.  Monetary amounts are modelled as exact rationals (the
source stores Python floats; all claims are stated over exact arithmetic).
Python dictionaries (`category_spending`, `monthly_data`) are modelled as
association lists in insertion order, which is exactly the iteration order
of a Python dict.  Python `round(x, 2)` is modelled by integer rounding of
`100 * x`; no claim below depends on tie-breaking behaviour.
-/

namespace FinanceTracker

/-- Transaction kind: the `type` column is constrained to the strings
`income` and `expense` by the route validation in `app.py`. -/
inductive TxKind where
  | income
  | expense
deriving DecidableEq, Repr

/-- Calendar date of a transaction (`Transaction.date`); only the fields
used by `strftime` patterns in the summary/export code are modelled. -/
structure Date where
  year : Nat
  month : Nat
  day : Nat
deriving DecidableEq, Repr

/-- A stored transaction, restricted to the fields the summary and export
code reads.  `description` is nullable in the schema (`db.Text` with no
`nullable=False`), hence an `Option`. -/
structure Transaction where
  kind : TxKind
  category : String
  amount : ℚ
  description : Option String
  date : Date
deriving DecidableEq, Repr

/-- Zero-padded decimal rendering of a natural number, as produced by the
zero-padding `strftime` directives. -/
def padNat (w n : Nat) : String :=
  let s := toString n
  if s.length < w then String.mk (List.replicate (w - s.length) '0') ++ s else s

/-- Model of `t.date.strftime('%Y-%m')` (line 340 of `app.py`). -/
def monthKey (d : Date) : String := padNat 4 d.year ++ "-" ++ padNat 2 d.month

/-- Model of `t.date.strftime('%Y-%m-%d')` (export code). -/
def fmtDate (d : Date) : String := monthKey d ++ "-" ++ padNat 2 d.day

/-- Line 327: `sum(t.amount for t in transactions if t.type == 'income')`. -/
def total_income (txs : List Transaction) : ℚ :=
  ((txs.filter fun t => decide (t.kind = TxKind.income)).map fun t => t.amount).sum

/-- Line 328: `sum(t.amount for t in transactions if t.type == 'expense')`. -/
def total_expense (txs : List Transaction) : ℚ :=
  ((txs.filter fun t => decide (t.kind = TxKind.expense)).map fun t => t.amount).sum

/-- Line 329: `balance = total_income - total_expense`. -/
def balance (txs : List Transaction) : ℚ := total_income txs - total_expense txs

/-- Model of Python `round(x, 2)`: round `100 * x` to an integer and divide
back.  (Python rounds ties to even; `round` on `ℚ` rounds ties up.  No
claim below depends on a tie.) -/
def round2 (q : ℚ) : ℚ := ((round (q * 100) : ℤ) : ℚ) / 100

/-- Dict read with default, as in `d.get(k, 0)` and in reading an existing
entry: returns the value of the first entry with the given key, `0` if
there is none.  Keys of the association lists built below are unique, so
"first" is "the" entry. -/
def catLookup (m : List (String × ℚ)) (c : String) : ℚ :=
  match m with
  | [] => 0
  | (c2, a) :: rest => if c2 = c then a else catLookup rest c

/-- Model of `category_spending[t.category] = category_spending.get(t.category, 0) + t.amount`
(line 335): add to the existing entry, or append a new key at the end,
exactly as a Python dict assignment does. -/
def insertCat (m : List (String × ℚ)) (c : String) (a : ℚ) : List (String × ℚ) :=
  match m with
  | [] => [(c, a)]
  | (c2, b) :: rest => if c2 = c then (c2, b + a) :: rest else (c2, b) :: insertCat rest c a

/-- Lines 332-335: the category-wise spending dict. -/
def category_spending (txs : List Transaction) : List (String × ℚ) :=
  txs.foldl (fun m t => if t.kind = TxKind.expense then insertCat m t.category t.amount else m) []

/-- Per-month accumulator: the dict value `{'income': ..., 'expense': ...}`. -/
structure MonthAgg where
  income : ℚ
  expense : ℚ
deriving DecidableEq, Repr

/-- Lines 344-347: add an amount to the `income` field when the type is
income, otherwise to the `expense` field (the source `else` branch). -/
def bumpAgg (agg : MonthAgg) (k : TxKind) (a : ℚ) : MonthAgg :=
  match k with
  | TxKind.income => { agg with income := agg.income + a }
  | TxKind.expense => { agg with expense := agg.expense + a }

/-- Lines 341-347: ensure the month key is present (initialised to zeroes)
and bump the matching field, preserving dict insertion order. -/
def insertMonth (m : List (String × MonthAgg)) (key : String) (k : TxKind) (a : ℚ) :
    List (String × MonthAgg) :=
  match m with
  | [] => [(key, bumpAgg ⟨0, 0⟩ k a)]
  | (k2, agg) :: rest =>
      if k2 = key then (k2, bumpAgg agg k a) :: rest
      else (k2, agg) :: insertMonth rest key k a

/-- Lines 338-347: the `monthly_data` dict. -/
def monthly_data (txs : List Transaction) : List (String × MonthAgg) :=
  txs.foldl (fun m t => insertMonth m (monthKey t.date) t.kind t.amount) []

/-- Dict read for `monthly_data[month]`; every key read by the source is
present, so the default is never observed. -/
def aggLookup (m : List (String × MonthAgg)) (key : String) : MonthAgg :=
  match m with
  | [] => ⟨0, 0⟩
  | (k2, agg) :: rest => if k2 = key then agg else aggLookup rest key

/-- Lexicographic comparison of character lists by code point: exactly how
Python compares the `"YYYY-MM"` key strings in `sorted(...)`. -/
def lexLe : List Char → List Char → Bool
  | [], _ => true
  | _ :: _, [] => false
  | a :: as, b :: bs =>
      if a.toNat = b.toNat then lexLe as bs else decide (a.toNat < b.toNat)

/-- Lexicographic (code-point) order on strings, as used by Python sort. -/
def strLe (s t : String) : Prop := lexLe s.data t.data = true

/-- Strict lexicographic order on strings. -/
def strLt (s t : String) : Prop := strLe s t ∧ s ≠ t

instance : DecidableRel strLe :=
  fun s t => inferInstanceAs (Decidable (lexLe s.data t.data = true))

/-- Line 350: `sorted(monthly_data.keys())[-12:]` — sort the keys
lexicographically ascending and keep the last (at most) twelve. -/
def sorted_months (txs : List Transaction) : List String :=
  let ks := List.insertionSort strLe ((monthly_data txs).map Prod.fst)
  ks.drop (ks.length - 12)

/-- Lines 351-358: the `monthly_summary` list of month records. -/
def monthly_summary (txs : List Transaction) : List (String × MonthAgg) :=
  (sorted_months txs).map fun m => (m, aggLookup (monthly_data txs) m)

/-- The JSON object returned by `/summary` (lines 360-367). -/
structure Summary where
  total_income : ℚ
  total_expense : ℚ
  balance : ℚ
  category_spending : List (String × ℚ)
  monthly_summary : List (String × MonthAgg)
  transaction_count : Nat
deriving DecidableEq, Repr

/-- Lines 321-367: the summary endpoint as a pure function of the user's
transaction list.  Rounding is applied exactly where the source applies
it: to the three top-level totals only. -/
def get_summary (txs : List Transaction) : Summary :=
  { total_income := round2 (total_income txs)
    total_expense := round2 (total_expense txs)
    balance := round2 (balance txs)
    category_spending := category_spending txs
    monthly_summary := monthly_summary txs
    transaction_count := txs.length }

/-- Model of `t.type.capitalize()` on the two legal kind strings. -/
def capitalizeKind : TxKind → String
  | TxKind.income => "Income"
  | TxKind.expense => "Expense"

/-- One row of the Excel `Transactions` sheet (lines 378-386). -/
structure ExcelRow where
  date : String
  type : String
  category : String
  amount : ℚ
  description : Option String
deriving DecidableEq, Repr

/-- Lines 378-386: one Excel row per transaction, in input order. -/
def excel_rows (txs : List Transaction) : List ExcelRow :=
  txs.map fun t =>
    ⟨fmtDate t.date, capitalizeKind t.kind, t.category, t.amount, t.description⟩

/-- Lines 396-407: the `Summary` sheet rows as `(Metric, Value)` pairs.
The values are recomputed by fresh generator sums over the transaction
list, with no rounding, exactly as in the source. -/
def excel_summary (txs : List Transaction) : List (String × ℚ) :=
  [("Total Income",
      ((txs.filter fun t => decide (t.kind = TxKind.income)).map fun t => t.amount).sum),
   ("Total Expense",
      ((txs.filter fun t => decide (t.kind = TxKind.expense)).map fun t => t.amount).sum),
   ("Balance",
      ((txs.filter fun t => decide (t.kind = TxKind.income)).map fun t => t.amount).sum -
      ((txs.filter fun t => decide (t.kind = TxKind.expense)).map fun t => t.amount).sum)]

/-- Line 462: `t.description[:30] + '...' if len(t.description) > 30 else t.description`.
When `description` is `None`, Python evaluates `len(None)` and raises
`TypeError`; the failure is modelled by `Except.error ()`. -/
def renderDesc : Option String → Except Unit String
  | none => Except.error ()
  | some d => Except.ok (if d.length > 30 then d.take 30 ++ "..." else d)

/-- Group a little-endian digit list into blocks of three with commas, the
comma grouping of Python format spec `,`. -/
def group3 : List Char → List Char
  | [] => []
  | [a] => [a]
  | [a, b] => [a, b]
  | [a, b, c] => [a, b, c]
  | a :: b :: c :: rest => a :: b :: c :: ',' :: group3 rest

/-- Model of the f-string `f"${t.amount:,.2f}"`: dollar sign, thousands
separators, two decimal places.  Amounts are positive by the route
validation, so only the nonnegative case is rendered. -/
def formatMoney (q : ℚ) : String :=
  let cents : Nat := (round (q * 100) : ℤ).toNat
  let intDigits := (toString (cents / 100)).data
  "$" ++ String.mk (group3 intDigits.reverse).reverse ++ "." ++ padNat 2 (cents % 100)

/-- Line 455: the header row of the PDF table. -/
def pdf_header : List String := ["Date", "Type", "Category", "Amount", "Description"]

/-- Lines 457-463: one PDF body row; fails when the description is null. -/
def pdfRow (t : Transaction) : Except Unit (List String) :=
  (renderDesc t.description).map fun d =>
    [fmtDate t.date, capitalizeKind t.kind, t.category, formatMoney t.amount, d]

/-- The description cell as a plain string for non-null descriptions
(the value `renderDesc` succeeds with). -/
def descCellStr : Option String → String
  | none => ""
  | some d => if d.length > 30 then d.take 30 ++ "..." else d

/-- The PDF body row of a transaction, defined for non-null descriptions. -/
def pdfRowStr (t : Transaction) : List String :=
  [fmtDate t.date, capitalizeKind t.kind, t.category, formatMoney t.amount,
   descCellStr t.description]

/-- Lines 456-463: the PDF body rows, built in input order; the loop
raises at the first null description, modelled by `mapM` in `Except`. -/
def pdf_body (txs : List Transaction) : Except Unit (List (List String)) :=
  txs.mapM pdfRow

/-- Lines 439-441: the totals of the PDF summary block (unrounded sums,
formatted later with `:,.2f`). -/
def pdf_totals (txs : List Transaction) : ℚ × ℚ × ℚ :=
  (total_income txs, total_expense txs, balance txs)

/-! ### Concrete transactions used by the worked examples -/

/-- Income 1000 on 2024-01-15 (example input of §8 of the spec). -/
def exIncome : Transaction :=
  ⟨TxKind.income, "Salary", 1000, some "", ⟨2024, 1, 15⟩⟩

/-- Expense 50, category Food, on 2024-01-20. -/
def exFood1 : Transaction :=
  ⟨TxKind.expense, "Food", 50, some "", ⟨2024, 1, 20⟩⟩

/-- Expense 30, category Food, on 2024-02-01. -/
def exFood2 : Transaction :=
  ⟨TxKind.expense, "Food", 30, some "", ⟨2024, 2, 1⟩⟩

/-- The three-transaction example input of §8 of the spec. -/
def exList : List Transaction := [exIncome, exFood1, exFood2]

/-- A transaction whose description is null. -/
def exNullDesc : Transaction :=
  ⟨TxKind.expense, "Misc", 5, none, ⟨2024, 1, 1⟩⟩

/-- Income transaction of amount 1 dated January of the given year. -/
def exM (y : Nat) : Transaction := ⟨TxKind.income, "Salary", 1, some "", ⟨y, 1, 1⟩⟩

/-- Thirteen income transactions of amount 1 in thirteen distinct months
(January of thirteen consecutive years). -/
def ex13 : List Transaction :=
  [exM 2020, exM 2021, exM 2022, exM 2023, exM 2024, exM 2025, exM 2026,
   exM 2027, exM 2028, exM 2029, exM 2030, exM 2031, exM 2032]

/-- A transaction whose amount `10.005` is not representable in two decimal
places, so that rounding changes it. -/
def exTenth : Transaction :=
  ⟨TxKind.income, "Salary", 2001 / 200, some "", ⟨2024, 1, 1⟩⟩

/-- A 31-character description. -/
def s31 : String := "abcdefghijklmnopqrstuvwxyz12345"

/-- A 30-character description. -/
def s30 : String := "abcdefghijklmnopqrstuvwxyz1234"

/-! ### Claim-language specification sums

These definitions restate, directly from the wording of the specification,
the quantities the summary is claimed to compute; the theorems below
compare them with the embedded code. -/

/-- Sum of the amounts of the expense-kind transactions labelled `c`. -/
def expenseSumFor (txs : List Transaction) (c : String) : ℚ :=
  ((txs.filter fun t => decide (t.kind = TxKind.expense ∧ t.category = c)).map
    fun t => t.amount).sum

/-- Sum of the income amounts of the transactions whose date falls in the
year-month `k`. -/
def incSumFor (txs : List Transaction) (k : String) : ℚ :=
  ((txs.filter fun t => decide (t.kind = TxKind.income ∧ monthKey t.date = k)).map
    fun t => t.amount).sum

/-- Sum of the expense amounts of the transactions whose date falls in the
year-month `k`. -/
def expSumFor (txs : List Transaction) (k : String) : ℚ :=
  ((txs.filter fun t => decide (t.kind = TxKind.expense ∧ monthKey t.date = k)).map
    fun t => t.amount).sum

/-- Number of distinct year-months among the transaction dates. -/
def month_count (txs : List Transaction) : Nat :=
  ((txs.map fun t => monthKey t.date).dedup).length

/-- Sum of the income values of the reported monthly series. -/
def series_income_sum (txs : List Transaction) : ℚ :=
  ((monthly_summary txs).map fun e => e.2.income).sum

/-- Sum of the expense values of the reported monthly series. -/
def series_expense_sum (txs : List Transaction) : ℚ :=
  ((monthly_summary txs).map fun e => e.2.expense).sum

/-! ### Order properties of the lexicographic key comparison -/

theorem char_eq_of_toNat_eq {a b : Char} (h : a.toNat = b.toNat) : a = b :=
  Char.eq_of_val_eq (UInt32.toNat.inj h)

theorem lexLe_refl : ∀ l : List Char, lexLe l l = true
  | [] => rfl
  | a :: as => by simp [lexLe, lexLe_refl as]

theorem lexLe_total : ∀ l m : List Char, lexLe l m = true ∨ lexLe m l = true
  | [], _ => Or.inl rfl
  | _ :: _, [] => Or.inr rfl
  | a :: as, b :: bs => by
    rcases Nat.lt_trichotomy a.toNat b.toNat with h | h | h
    · left; simp [lexLe, h, Nat.ne_of_lt h]
    · simpa [lexLe, h] using lexLe_total as bs
    · right; simp [lexLe, h, Nat.ne_of_lt h]

theorem lexLe_trans :
    ∀ {l m k : List Char}, lexLe l m = true → lexLe m k = true → lexLe l k = true
  | [], _, _, _, _ => rfl
  | _ :: _, [], _, h, _ => by simp [lexLe] at h
  | _ :: _, _ :: _, [], _, h => by simp [lexLe] at h
  | a :: as, b :: bs, c :: cs, h1, h2 => by
    simp only [lexLe] at h1 h2 ⊢
    by_cases hab : a.toNat = b.toNat <;> by_cases hbc : b.toNat = c.toNat
    · rw [if_pos hab] at h1
      rw [if_pos hbc] at h2
      rw [if_pos (hab.trans hbc)]
      exact lexLe_trans h1 h2
    · rw [if_pos hab] at h1
      rw [if_neg hbc] at h2
      have hb : b.toNat < c.toNat := of_decide_eq_true h2
      rw [if_neg (by omega)]
      exact decide_eq_true (by omega)
    · rw [if_neg hab] at h1
      rw [if_pos hbc] at h2
      have ha : a.toNat < b.toNat := of_decide_eq_true h1
      rw [if_neg (by omega)]
      exact decide_eq_true (by omega)
    · rw [if_neg hab] at h1
      rw [if_neg hbc] at h2
      have ha : a.toNat < b.toNat := of_decide_eq_true h1
      have hb : b.toNat < c.toNat := of_decide_eq_true h2
      rw [if_neg (by omega)]
      exact decide_eq_true (by omega)

theorem lexLe_antisymm :
    ∀ {l m : List Char}, lexLe l m = true → lexLe m l = true → l = m
  | [], [], _, _ => rfl
  | [], _ :: _, _, h => by simp [lexLe] at h
  | _ :: _, [], h, _ => by simp [lexLe] at h
  | a :: as, b :: bs, h1, h2 => by
    simp only [lexLe] at h1 h2
    by_cases hab : a.toNat = b.toNat
    · rw [if_pos hab] at h1
      rw [if_pos hab.symm] at h2
      cases char_eq_of_toNat_eq hab
      exact congrArg (a :: ·) (lexLe_antisymm h1 h2)
    · rw [if_neg hab] at h1
      rw [if_neg (fun h => hab h.symm)] at h2
      have ha := of_decide_eq_true h1
      have hb := of_decide_eq_true h2
      omega

instance : IsTotal String strLe := ⟨fun s t => lexLe_total s.data t.data⟩

instance : IsTrans String strLe := ⟨fun _ _ _ h1 h2 => lexLe_trans h1 h2⟩

instance : IsRefl String strLe := ⟨fun s => lexLe_refl s.data⟩

instance : IsAntisymm String strLe :=
  ⟨fun s t h1 h2 => by
    cases s; cases t
    exact congrArg String.mk (lexLe_antisymm h1 h2)⟩

/-! ### Unfolding lemmas for the generator sums -/

theorem total_income_nil : total_income [] = 0 := rfl

theorem total_income_cons (t : Transaction) (txs : List Transaction) :
    total_income (t :: txs) =
      (if t.kind = TxKind.income then t.amount else 0) + total_income txs := by
  by_cases h : t.kind = TxKind.income <;> simp [total_income, List.filter_cons, h]

theorem total_expense_nil : total_expense [] = 0 := rfl

theorem total_expense_cons (t : Transaction) (txs : List Transaction) :
    total_expense (t :: txs) =
      (if t.kind = TxKind.expense then t.amount else 0) + total_expense txs := by
  by_cases h : t.kind = TxKind.expense <;> simp [total_expense, List.filter_cons, h]

theorem expenseSumFor_cons (t : Transaction) (txs : List Transaction) (c : String) :
    expenseSumFor (t :: txs) c =
      (if t.kind = TxKind.expense ∧ t.category = c then t.amount else 0) +
        expenseSumFor txs c := by
  by_cases h : t.kind = TxKind.expense ∧ t.category = c <;>
    simp [expenseSumFor, List.filter_cons, h]

theorem incSumFor_cons (t : Transaction) (txs : List Transaction) (k : String) :
    incSumFor (t :: txs) k =
      (if t.kind = TxKind.income ∧ monthKey t.date = k then t.amount else 0) +
        incSumFor txs k := by
  by_cases h : t.kind = TxKind.income ∧ monthKey t.date = k <;>
    simp [incSumFor, List.filter_cons, h]

theorem expSumFor_cons (t : Transaction) (txs : List Transaction) (k : String) :
    expSumFor (t :: txs) k =
      (if t.kind = TxKind.expense ∧ monthKey t.date = k then t.amount else 0) +
        expSumFor txs k := by
  by_cases h : t.kind = TxKind.expense ∧ monthKey t.date = k <;>
    simp [expSumFor, List.filter_cons, h]

/-! ### The category-spending dict -/

theorem catLookup_insertCat (m : List (String × ℚ)) (c d : String) (a : ℚ) :
    catLookup (insertCat m c a) d = catLookup m d + if c = d then a else 0 := by
  induction m with
  | nil =>
    by_cases h : c = d <;> simp [insertCat, catLookup, h]
  | cons p m ih =>
    obtain ⟨c2, b⟩ := p
    by_cases h2 : c2 = c
    · subst h2
      by_cases h : c2 = d <;> simp [insertCat, catLookup, h]
    · by_cases h : c2 = d
      · subst h
        simp [insertCat, catLookup, h2, if_neg (fun hcd : c = c2 => h2 hcd.symm)]
      · simp [insertCat, catLookup, h2, h, ih]

theorem catValues_insertCat (m : List (String × ℚ)) (c : String) (a : ℚ) :
    ((insertCat m c a).map Prod.snd).sum = (m.map Prod.snd).sum + a := by
  induction m with
  | nil => simp [insertCat]
  | cons p m ih =>
    obtain ⟨c2, b⟩ := p
    by_cases h2 : c2 = c <;> simp [insertCat, h2, ih] <;> ring

theorem mem_keys_insertCat (m : List (String × ℚ)) (c d : String) (a : ℚ) :
    d ∈ (insertCat m c a).map Prod.fst ↔ d ∈ m.map Prod.fst ∨ d = c := by
  induction m with
  | nil => simp [insertCat]
  | cons p m ih =>
    obtain ⟨c2, b⟩ := p
    by_cases h2 : c2 = c <;> simp [insertCat, h2, ih] <;> tauto

theorem nodup_keys_insertCat (m : List (String × ℚ)) (c : String) (a : ℚ)
    (h : (m.map Prod.fst).Nodup) : ((insertCat m c a).map Prod.fst).Nodup := by
  induction m with
  | nil => simp [insertCat]
  | cons p m ih =>
    obtain ⟨c2, b⟩ := p
    simp only [List.map_cons, List.nodup_cons] at h
    by_cases h2 : c2 = c
    · subst h2
      have he : insertCat ((c2, b) :: m) c2 a = (c2, b + a) :: m := by simp [insertCat]
      rw [he]
      simp only [List.map_cons, List.nodup_cons]
      exact ⟨h.1, h.2⟩
    · simp only [insertCat, if_neg h2, List.map_cons, List.nodup_cons]
      refine ⟨fun hmem => ?_, ih h.2⟩
      rcases (mem_keys_insertCat m c c2 a).mp hmem with hin | heq
      · exact h.1 hin
      · exact h2 heq

theorem catLookup_category_spending_aux (txs : List Transaction)
    (m : List (String × ℚ)) (c : String) :
    catLookup
        (txs.foldl
          (fun m t => if t.kind = TxKind.expense then insertCat m t.category t.amount else m) m)
        c =
      catLookup m c + expenseSumFor txs c := by
  induction txs generalizing m with
  | nil => simp [expenseSumFor]
  | cons t txs ih =>
    rw [List.foldl_cons, ih, expenseSumFor_cons]
    by_cases hk : t.kind = TxKind.expense
    · by_cases hc : t.category = c <;>
        simp [hk, hc, catLookup_insertCat] <;> ring
    · simp [hk]

/-- The category-spending dict looks up to exactly the per-label sum of
expense amounts; in particular income transactions never contribute. -/
theorem catLookup_category_spending (txs : List Transaction) (c : String) :
    catLookup (category_spending txs) c = expenseSumFor txs c := by
  have h := catLookup_category_spending_aux txs [] c
  simpa [category_spending, catLookup] using h

theorem catValues_category_spending_aux (txs : List Transaction)
    (m : List (String × ℚ)) :
    (((txs.foldl
          (fun m t => if t.kind = TxKind.expense then insertCat m t.category t.amount else m) m).map
        Prod.snd).sum) =
      (m.map Prod.snd).sum + total_expense txs := by
  induction txs generalizing m with
  | nil => simp [total_expense]
  | cons t txs ih =>
    rw [List.foldl_cons, ih, total_expense_cons]
    by_cases hk : t.kind = TxKind.expense
    · simp [hk, catValues_insertCat]
      ring
    · simp [hk]

/-- The values of the category-spending dict sum to the unrounded total
expense. -/
theorem catValues_category_spending (txs : List Transaction) :
    ((category_spending txs).map Prod.snd).sum = total_expense txs := by
  have h := catValues_category_spending_aux txs []
  simpa [category_spending] using h

theorem mem_keys_category_spending_aux (txs : List Transaction)
    (m : List (String × ℚ)) (c : String) :
    c ∈ ((txs.foldl
          (fun m t => if t.kind = TxKind.expense then insertCat m t.category t.amount else m) m).map
        Prod.fst) ↔
      c ∈ m.map Prod.fst ∨ ∃ t ∈ txs, t.kind = TxKind.expense ∧ t.category = c := by
  induction txs generalizing m with
  | nil => simp
  | cons t txs ih =>
    rw [List.foldl_cons]
    by_cases hk : t.kind = TxKind.expense
    · rw [if_pos hk, ih]
      simp only [mem_keys_insertCat, List.mem_cons]
      constructor
      · rintro (⟨hin | heq⟩ | ⟨u, hu, hk2, hc⟩)
        · exact Or.inl hin
        · exact Or.inr ⟨t, Or.inl rfl, hk, heq.symm⟩
        · exact Or.inr ⟨u, Or.inr hu, hk2, hc⟩
      · rintro (hin | ⟨u, hu | hu, hk2, hc⟩)
        · exact Or.inl (Or.inl hin)
        · subst hu
          exact Or.inl (Or.inr hc.symm)
        · exact Or.inr ⟨u, hu, hk2, hc⟩
    · rw [if_neg hk, ih]
      constructor
      · rintro (hin | ⟨u, hu, hk2, hc⟩)
        · exact Or.inl hin
        · exact Or.inr ⟨u, List.mem_cons_of_mem _ hu, hk2, hc⟩
      · rintro (hin | ⟨u, hu, hk2, hc⟩)
        · exact Or.inl hin
        · rcases List.mem_cons.mp hu with rfl | hu
          · exact absurd hk2 hk
          · exact Or.inr ⟨u, hu, hk2, hc⟩

/-- Every key of the category-spending dict is the label of some
expense-kind transaction. -/
theorem mem_keys_category_spending (txs : List Transaction) (c : String) :
    c ∈ (category_spending txs).map Prod.fst ↔
      ∃ t ∈ txs, t.kind = TxKind.expense ∧ t.category = c := by
  have h := mem_keys_category_spending_aux txs [] c
  simpa [category_spending] using h

theorem nodup_keys_category_spending_aux (txs : List Transaction)
    (m : List (String × ℚ)) (h : (m.map Prod.fst).Nodup) :
    (((txs.foldl
          (fun m t => if t.kind = TxKind.expense then insertCat m t.category t.amount else m) m).map
        Prod.fst).Nodup) := by
  induction txs generalizing m with
  | nil => exact h
  | cons t txs ih =>
    rw [List.foldl_cons]
    by_cases hk : t.kind = TxKind.expense
    · rw [if_pos hk]
      exact ih _ (nodup_keys_insertCat m t.category t.amount h)
    · rw [if_neg hk]
      exact ih _ h

theorem nodup_keys_category_spending (txs : List Transaction) :
    ((category_spending txs).map Prod.fst).Nodup :=
  nodup_keys_category_spending_aux txs [] (by simp)

/-- In a dict with unique keys, each entry's value is its key's lookup. -/
theorem mem_catLookup_of_nodup (m : List (String × ℚ))
    (hnd : (m.map Prod.fst).Nodup) (c : String) (a : ℚ) (h : (c, a) ∈ m) :
    catLookup m c = a := by
  induction m with
  | nil => cases h
  | cons p m ih =>
    obtain ⟨c2, b⟩ := p
    simp only [List.map_cons, List.nodup_cons] at hnd
    rcases List.mem_cons.mp h with heq | hmem
    · cases heq
      simp [catLookup]
    · have hne : c2 ≠ c := by
        intro he
        subst he
        exact hnd.1 (List.mem_map.mpr ⟨(c2, a), hmem, rfl⟩)
      simp only [catLookup, if_neg hne]
      exact ih hnd.2 hmem

/-! ### The monthly-data dict -/

theorem aggLookup_insertMonth (m : List (String × MonthAgg)) (key d : String)
    (k : TxKind) (a : ℚ) :
    aggLookup (insertMonth m key k a) d =
      if key = d then bumpAgg (aggLookup m d) k a else aggLookup m d := by
  induction m with
  | nil =>
    by_cases h : key = d <;> simp [insertMonth, aggLookup, h]
  | cons p m ih =>
    obtain ⟨k2, agg⟩ := p
    by_cases h2 : k2 = key
    · subst h2
      by_cases h : k2 = d <;> simp [insertMonth, aggLookup, h]
    · by_cases h : k2 = d
      · subst h
        simp [insertMonth, aggLookup, h2, if_neg (fun hkd : key = k2 => h2 hkd.symm)]
      · simp [insertMonth, aggLookup, h2, h, ih]

theorem aggLookup_monthly_data_aux (txs : List Transaction)
    (m : List (String × MonthAgg)) (k : String) :
    aggLookup (txs.foldl (fun m t => insertMonth m (monthKey t.date) t.kind t.amount) m) k =
      ⟨(aggLookup m k).income + incSumFor txs k,
       (aggLookup m k).expense + expSumFor txs k⟩ := by
  induction txs generalizing m with
  | nil => simp [incSumFor, expSumFor]
  | cons t txs ih =>
    rw [List.foldl_cons, ih, incSumFor_cons, expSumFor_cons, aggLookup_insertMonth]
    by_cases hm : monthKey t.date = k
    · rw [if_pos hm]
      cases hk : t.kind <;>
        simp [bumpAgg, hk, hm, MonthAgg.mk.injEq] <;> ring
    · rw [if_neg hm]
      simp [hm]

/-- The monthly dict holds, for every key, exactly the per-month income and
expense sums of the transaction list. -/
theorem aggLookup_monthly_data (txs : List Transaction) (k : String) :
    aggLookup (monthly_data txs) k = ⟨incSumFor txs k, expSumFor txs k⟩ := by
  have h := aggLookup_monthly_data_aux txs [] k
  simpa [monthly_data, aggLookup] using h

theorem mem_keys_insertMonth (m : List (String × MonthAgg)) (key d : String)
    (k : TxKind) (a : ℚ) :
    d ∈ (insertMonth m key k a).map Prod.fst ↔ d ∈ m.map Prod.fst ∨ d = key := by
  induction m with
  | nil => simp [insertMonth]
  | cons p m ih =>
    obtain ⟨k2, agg⟩ := p
    by_cases h2 : k2 = key <;> simp [insertMonth, h2, ih] <;> tauto

theorem nodup_keys_insertMonth (m : List (String × MonthAgg)) (key : String)
    (k : TxKind) (a : ℚ) (h : (m.map Prod.fst).Nodup) :
    ((insertMonth m key k a).map Prod.fst).Nodup := by
  induction m with
  | nil => simp [insertMonth]
  | cons p m ih =>
    obtain ⟨k2, agg⟩ := p
    simp only [List.map_cons, List.nodup_cons] at h
    by_cases h2 : k2 = key
    · subst h2
      have he : insertMonth ((k2, agg) :: m) k2 k a = (k2, bumpAgg agg k a) :: m := by
        simp [insertMonth]
      rw [he]
      simp only [List.map_cons, List.nodup_cons]
      exact ⟨h.1, h.2⟩
    · simp only [insertMonth, if_neg h2, List.map_cons, List.nodup_cons]
      refine ⟨fun hmem => ?_, ih h.2⟩
      rcases (mem_keys_insertMonth m key k2 k a).mp hmem with hin | heq
      · exact h.1 hin
      · exact h2 heq

theorem mem_keys_monthly_data_aux (txs : List Transaction)
    (m : List (String × MonthAgg)) (k : String) :
    k ∈ ((txs.foldl (fun m t => insertMonth m (monthKey t.date) t.kind t.amount) m).map
        Prod.fst) ↔
      k ∈ m.map Prod.fst ∨ k ∈ txs.map fun t => monthKey t.date := by
  induction txs generalizing m with
  | nil => simp
  | cons t txs ih =>
    rw [List.foldl_cons, ih]
    simp only [mem_keys_insertMonth, List.map_cons, List.mem_cons]
    tauto

/-- The keys of the monthly dict are exactly the year-months occurring in
the transaction list. -/
theorem mem_keys_monthly_data (txs : List Transaction) (k : String) :
    k ∈ (monthly_data txs).map Prod.fst ↔ k ∈ txs.map fun t => monthKey t.date := by
  have h := mem_keys_monthly_data_aux txs [] k
  simpa [monthly_data] using h

theorem nodup_keys_monthly_data_aux (txs : List Transaction)
    (m : List (String × MonthAgg)) (h : (m.map Prod.fst).Nodup) :
    (((txs.foldl (fun m t => insertMonth m (monthKey t.date) t.kind t.amount) m).map
        Prod.fst).Nodup) := by
  induction txs generalizing m with
  | nil => exact h
  | cons t txs ih =>
    rw [List.foldl_cons]
    exact ih _ (nodup_keys_insertMonth m (monthKey t.date) t.kind t.amount h)

theorem nodup_keys_monthly_data (txs : List Transaction) :
    ((monthly_data txs).map Prod.fst).Nodup :=
  nodup_keys_monthly_data_aux txs [] (by simp)

/-! ### Properties of the sorted, truncated month-key list -/

theorem sorted_months_length (txs : List Transaction) :
    (sorted_months txs).length ≤ 12 := by
  simp only [sorted_months, List.length_drop]
  omega

theorem sorted_months_sorted (txs : List Transaction) :
    List.Sorted strLe (sorted_months txs) := by
  have hs : List.Sorted strLe
      (List.insertionSort strLe ((monthly_data txs).map Prod.fst)) :=
    List.sorted_insertionSort strLe _
  exact hs.sublist (List.drop_sublist _ _)

theorem sorted_months_nodup (txs : List Transaction) :
    (sorted_months txs).Nodup := by
  have hperm : List.Perm (List.insertionSort strLe ((monthly_data txs).map Prod.fst))
      ((monthly_data txs).map Prod.fst) := List.perm_insertionSort strLe _
  have hnd : (List.insertionSort strLe ((monthly_data txs).map Prod.fst)).Nodup :=
    hperm.nodup_iff.mpr (nodup_keys_monthly_data txs)
  exact hnd.sublist (List.drop_sublist _ _)

theorem sorted_months_strict (txs : List Transaction) :
    List.Pairwise strLt (sorted_months txs) := by
  have hs := sorted_months_sorted txs
  have hn := sorted_months_nodup txs
  exact (hs.and hn).imp fun h => ⟨h.1, h.2⟩

/-- Without truncation (at most 12 distinct months) the sorted key list is
a permutation of the monthly-dict keys. -/
theorem sorted_months_perm_of_le (txs : List Transaction)
    (h : ((monthly_data txs).map Prod.fst).length ≤ 12) :
    List.Perm (sorted_months txs) ((monthly_data txs).map Prod.fst) := by
  have hperm : List.Perm (List.insertionSort strLe ((monthly_data txs).map Prod.fst))
      ((monthly_data txs).map Prod.fst) := List.perm_insertionSort strLe _
  have hlen : ((monthly_data txs).map Prod.fst).length = (monthly_data txs).length :=
    List.length_map _ _
  have hz : (monthly_data txs).length - 12 = 0 := by omega
  simpa [sorted_months, hz] using hperm

/-! ### Further shared helpers -/

theorem total_income_eq_sum_ite (txs : List Transaction) :
    total_income txs =
      (txs.map fun t => if t.kind = TxKind.income then t.amount else 0).sum := by
  induction txs with
  | nil => simp [total_income]
  | cons t txs ih => rw [total_income_cons, List.map_cons, List.sum_cons, ih]

theorem total_expense_eq_sum_ite (txs : List Transaction) :
    total_expense txs =
      (txs.map fun t => if t.kind = TxKind.expense then t.amount else 0).sum := by
  induction txs with
  | nil => simp [total_expense]
  | cons t txs ih => rw [total_expense_cons, List.map_cons, List.sum_cons, ih]

theorem mem_keys_of_mem_sorted_months (txs : List Transaction) (k : String)
    (h : k ∈ sorted_months txs) : k ∈ (monthly_data txs).map Prod.fst := by
  have h2 : k ∈ List.insertionSort strLe ((monthly_data txs).map Prod.fst) :=
    (List.drop_sublist _ _).subset h
  exact (List.perm_insertionSort strLe _).subset h2

theorem round2_zero : round2 0 = 0 := by simp [round2]

/-! ### Claim C1 -/

/-- C1: for every transaction list the summary's (pre-rounding) total
income is the sum of the income-kind amounts, the total expense is the sum
of the expense-kind amounts, the pre-rounding balance is exactly their
difference, the reported balance is that difference rounded to two decimal
places, and on the empty list all three reported totals are zero and the
transaction count is zero. -/
theorem c1_summary_totals (txs : List Transaction) :
    total_income txs =
        (txs.map fun t => if t.kind = TxKind.income then t.amount else 0).sum ∧
    total_expense txs =
        (txs.map fun t => if t.kind = TxKind.expense then t.amount else 0).sum ∧
    balance txs = total_income txs - total_expense txs ∧
    (get_summary txs).balance = round2 (total_income txs - total_expense txs) ∧
    ((get_summary []).total_income = 0 ∧ (get_summary []).total_expense = 0 ∧
      (get_summary []).balance = 0 ∧ (get_summary []).transaction_count = 0) := by
  refine ⟨total_income_eq_sum_ite txs, total_expense_eq_sum_ite txs, rfl, rfl, ?_⟩
  simp [get_summary, total_income, total_expense, balance, round2_zero]

/-! ### Claim C2 -/

/-- C2: the monthly series is indexed by the sorted, truncated list of
year-month keys; it never has more than 12 entries, its keys are strictly
ascending in the lexicographic order, every key comes from some
transaction's year-month, and every entry holds the per-key accumulated
income and expense sums. -/
theorem c2_monthly_series_shape (txs : List Transaction) :
    (monthly_summary txs).length ≤ 12 ∧
    (monthly_summary txs).map Prod.fst = sorted_months txs ∧
    List.Pairwise strLt ((monthly_summary txs).map Prod.fst) ∧
    (∀ e ∈ monthly_summary txs, e.1 ∈ txs.map fun t => monthKey t.date) ∧
    (∀ e ∈ monthly_summary txs, e.2 = ⟨incSumFor txs e.1, expSumFor txs e.1⟩) := by
  have hfst : (monthly_summary txs).map Prod.fst = sorted_months txs := by
    simp [monthly_summary, List.map_map, Function.comp_def]
  refine ⟨?_, hfst, ?_, ?_, ?_⟩
  · have := sorted_months_length txs
    simpa [monthly_summary] using this
  · rw [hfst]
    exact sorted_months_strict txs
  · intro e he
    rcases List.mem_map.mp he with ⟨m, hm, rfl⟩
    exact (mem_keys_monthly_data txs m).mp (mem_keys_of_mem_sorted_months txs m hm)
  · intro e he
    rcases List.mem_map.mp he with ⟨m, hm, rfl⟩
    simpa using aggLookup_monthly_data txs m

/-! ### Claim C3 -/

/-- C3: the category breakdown maps every label to the sum of the amounts
of the expense-kind transactions with that label, every key of the
breakdown comes from an expense-kind transaction (so income transactions
contribute nothing), and the values of the breakdown sum to the unrounded
total expense. -/
theorem c3_category_breakdown (txs : List Transaction) :
    (∀ c, catLookup (category_spending txs) c = expenseSumFor txs c) ∧
    (∀ c ∈ (category_spending txs).map Prod.fst,
        ∃ t ∈ txs, t.kind = TxKind.expense ∧ t.category = c) ∧
    ((category_spending txs).map Prod.snd).sum = total_expense txs :=
  ⟨fun c => catLookup_category_spending txs c,
   fun c hc => (mem_keys_category_spending txs c).mp hc,
   catValues_category_spending txs⟩

/-! ### Claim C5 -/

/-- C5: rounding to two decimals is applied to the three top-level totals
of the report only; every category-breakdown value and every monthly
income/expense value is the exact unrounded sum of its contributing
amounts. -/
theorem c5_rounding_only_top_level (txs : List Transaction) :
    (get_summary txs).total_income = round2 (total_income txs) ∧
    (get_summary txs).total_expense = round2 (total_expense txs) ∧
    (get_summary txs).balance = round2 (total_income txs - total_expense txs) ∧
    (∀ e ∈ (get_summary txs).category_spending, e.2 = expenseSumFor txs e.1) ∧
    (∀ e ∈ (get_summary txs).monthly_summary,
        e.2.income = incSumFor txs e.1 ∧ e.2.expense = expSumFor txs e.1) := by
  refine ⟨rfl, rfl, rfl, ?_, ?_⟩
  · intro e he
    have hl : catLookup (category_spending txs) e.1 = e.2 :=
      mem_catLookup_of_nodup _ (nodup_keys_category_spending txs) e.1 e.2
        (by simpa using he)
    rw [← hl, catLookup_category_spending]
  · intro e he
    rcases List.mem_map.mp he with ⟨m, _, rfl⟩
    simp [aggLookup_monthly_data]

/-! ### Claim C6 -/

/-- C6: the Excel Summary sheet has exactly the three rows Total Income,
Total Expense and Balance, whose values are the unrounded sums recomputed
from the transaction list; on a concrete input whose total is not
representable in two decimals they differ from the aggregator's rounded
totals. -/
theorem c6_excel_summary_sheet (txs : List Transaction) :
    excel_summary txs =
      [("Total Income", total_income txs), ("Total Expense", total_expense txs),
       ("Balance", total_income txs - total_expense txs)] ∧
    (excel_summary txs).length = 3 ∧
    (excel_summary [exTenth]).map Prod.snd ≠
      [(get_summary [exTenth]).total_income, (get_summary [exTenth]).total_expense,
       (get_summary [exTenth]).balance] := by
  refine ⟨rfl, rfl, fun h => ?_⟩
  have h1 : total_income [exTenth] = 2001 / 200 := by
    norm_num [total_income, exTenth, List.filter]
  have h2 : round2 (2001 / 200) = 1001 / 100 := by
    rw [round2, show ((2001 : ℚ) / 200) * 100 = 2001 / 2 by ring, round_eq,
      show ((2001 : ℚ) / 2 + 1 / 2) = ((1001 : ℤ) : ℚ) by norm_num, Int.floor_intCast]
    norm_num
  have hmap : (excel_summary [exTenth]).map Prod.snd =
      [total_income [exTenth], total_expense [exTenth],
       total_income [exTenth] - total_expense [exTenth]] := rfl
  rw [hmap] at h
  have hh := congrArg (fun l => l.headI) h
  simp [get_summary, h1, h2] at hh
  norm_num at hh

/-! ### Claim C4 -/

/-- C4 counterexample: with a null description the rendered description
cell is not the empty string — the renderer fails, because the source
evaluates `len(t.description)` on `None`. -/
theorem c4_counterexample : renderDesc none ≠ Except.ok "" := by
  simp [renderDesc]

/-- C4 (amended): a description longer than 30 characters is rendered as
its first 30 characters followed by the ellipsis marker, a description of
at most 30 characters is rendered unchanged, and a null description makes
the render fail (a type error on `len(None)`) instead of yielding an empty
string. -/
theorem c4_description_truncation (d : String) :
    (30 < d.length → renderDesc (some d) = Except.ok (d.take 30 ++ "...")) ∧
    (d.length ≤ 30 → renderDesc (some d) = Except.ok d) ∧
    renderDesc none = Except.error () := by
  refine ⟨fun h => ?_, fun h => ?_, rfl⟩
  · simp [renderDesc, h]
  · simp [renderDesc, Nat.not_lt.mpr h]

/-- C4 witness: the amended truncation theorem applied to a concrete
31-character and a concrete 30-character description. -/
theorem c4_description_truncation_witness :
    renderDesc (some s31) = Except.ok (s31.take 30 ++ "...") ∧
    renderDesc (some s30) = Except.ok s30 :=
  ⟨(c4_description_truncation s31).1 (by decide),
   (c4_description_truncation s30).2.1 (by decide)⟩

/-! ### Claim C7 -/

theorem pdfRow_ok (t : Transaction) (h : t.description ≠ none) :
    pdfRow t = Except.ok (pdfRowStr t) := by
  cases hd : t.description with
  | none => exact absurd hd h
  | some d => simp [pdfRow, pdfRowStr, renderDesc, descCellStr, hd, Except.map]

theorem pdf_body_ok (txs : List Transaction) (h : ∀ t ∈ txs, t.description ≠ none) :
    pdf_body txs = Except.ok (txs.map pdfRowStr) := by
  induction txs with
  | nil => rfl
  | cons t txs ih =>
    have ht : pdfRow t = Except.ok (pdfRowStr t) := pdfRow_ok t (h t (List.mem_cons_self t txs))
    have hrest : pdf_body txs = Except.ok (txs.map pdfRowStr) :=
      ih fun u hu => h u (List.mem_cons_of_mem t hu)
    simp only [pdf_body, List.mapM_cons] at hrest ⊢
    rw [ht]
    simp only [List.map_cons]
    rw [show (txs.mapM pdfRow : Except Unit (List (List String))) =
        Except.ok (txs.map pdfRowStr) from hrest]
    rfl

/-- C7 (amended): the Excel Transactions sheet always has exactly one row
per transaction in input order; the PDF table likewise, provided every
description is non-null (a null description aborts the PDF render); the
empty transaction list still yields valid zero-row exports with zero
totals. -/
theorem c7_export_row_counts (txs : List Transaction) :
    (excel_rows txs).length = txs.length ∧
    ((∀ t ∈ txs, t.description ≠ none) →
      pdf_body txs = Except.ok (txs.map pdfRowStr) ∧
      (txs.map pdfRowStr).length = txs.length) ∧
    (excel_rows ([] : List Transaction) = [] ∧
      pdf_body ([] : List Transaction) = Except.ok [] ∧
      excel_summary ([] : List Transaction) =
        [("Total Income", 0), ("Total Expense", 0), ("Balance", 0)] ∧
      pdf_totals ([] : List Transaction) = (0, 0, 0)) := by
  refine ⟨by simp [excel_rows], fun h => ⟨pdf_body_ok txs h, List.length_map _ _⟩,
    rfl, rfl, ?_, ?_⟩
  · simp [excel_summary]
  · simp [pdf_totals, total_income, total_expense, balance]

/-- C7 witness: the amended export-row theorem applied to a concrete
one-transaction list with a non-null description. -/
theorem c7_export_row_counts_witness :
    (∀ t ∈ [exIncome], t.description ≠ none) ∧
    pdf_body [exIncome] = Except.ok ([exIncome].map pdfRowStr) :=
  ⟨by decide, ((c7_export_row_counts [exIncome]).2.1 (by decide)).1⟩

/-- C7 counterexample: on the one-transaction list whose description is
null, the PDF export produces no body rows at all — the render fails — so
the body row count does not equal the transaction count. -/
theorem c7_counterexample :
    ¬ ∃ rows, pdf_body [exNullDesc] = Except.ok rows ∧ rows.length = 1 := by
  rintro ⟨rows, hr, _⟩
  have he : pdf_body [exNullDesc] = Except.error () := by
    simp [pdf_body, exNullDesc, pdfRow, renderDesc, List.mapM, List.mapM.loop, Except.map]
  rw [he] at hr
  cases hr

/-! ### Claim C8 -/

/-- C8: on the three-transaction example input the summary reports total
income 1000, total expense 80, balance 920, a category breakdown mapping
Food to 80, and the two-month series with January income 1000 and expense
50 and February income 0 and expense 30. -/
theorem c8_worked_example :
    (get_summary exList).total_income = 1000 ∧
    (get_summary exList).total_expense = 80 ∧
    (get_summary exList).balance = 920 ∧
    (get_summary exList).category_spending = [("Food", 80)] ∧
    (get_summary exList).monthly_summary =
      [("2024-01", ⟨1000, 50⟩), ("2024-02", ⟨0, 30⟩)] ∧
    (get_summary exList).transaction_count = 3 := by
  have h1 : monthKey ⟨2024, 1, 15⟩ = "2024-01" := by decide
  have h2 : monthKey ⟨2024, 1, 20⟩ = "2024-01" := by decide
  have h3 : monthKey ⟨2024, 2, 1⟩ = "2024-02" := by decide
  have h4 : strLe "2024-01" "2024-02" := by decide
  have hs : get_summary exList =
      { total_income := 1000, total_expense := 80, balance := 920,
        category_spending := [("Food", 80)],
        monthly_summary := [("2024-01", ⟨1000, 50⟩), ("2024-02", ⟨0, 30⟩)],
        transaction_count := 3 } := by
    simp [get_summary, total_income, total_expense, balance, round2, category_spending,
      monthly_summary, sorted_months, monthly_data, insertCat, insertMonth, aggLookup, bumpAgg,
      exList, exIncome, exFood1, exFood2, h1, h2, h3, h4,
      List.foldl, List.insertionSort, List.orderedInsert, Summary.mk.injEq]
    norm_num
  rw [hs]
  exact ⟨rfl, rfl, rfl, rfl, rfl, rfl⟩

/-! ### Claim C9 -/

theorem total_income_perm {txs txs2 : List Transaction} (h : List.Perm txs txs2) :
    total_income txs = total_income txs2 :=
  ((h.filter _).map _).sum_eq

theorem total_expense_perm {txs txs2 : List Transaction} (h : List.Perm txs txs2) :
    total_expense txs = total_expense txs2 :=
  ((h.filter _).map _).sum_eq

theorem expenseSumFor_perm {txs txs2 : List Transaction} (h : List.Perm txs txs2)
    (c : String) : expenseSumFor txs c = expenseSumFor txs2 c :=
  ((h.filter _).map _).sum_eq

theorem incSumFor_perm {txs txs2 : List Transaction} (h : List.Perm txs txs2)
    (k : String) : incSumFor txs k = incSumFor txs2 k :=
  ((h.filter _).map _).sum_eq

theorem expSumFor_perm {txs txs2 : List Transaction} (h : List.Perm txs txs2)
    (k : String) : expSumFor txs k = expSumFor txs2 k :=
  ((h.filter _).map _).sum_eq

theorem keys_monthly_data_perm {txs txs2 : List Transaction} (h : List.Perm txs txs2) :
    List.Perm ((monthly_data txs).map Prod.fst) ((monthly_data txs2).map Prod.fst) := by
  apply List.perm_of_nodup_nodup_toFinset_eq (nodup_keys_monthly_data txs)
    (nodup_keys_monthly_data txs2)
  ext k
  simp only [List.mem_toFinset, mem_keys_monthly_data]
  exact (h.map _).mem_iff

theorem sorted_months_perm_inv {txs txs2 : List Transaction} (h : List.Perm txs txs2) :
    sorted_months txs = sorted_months txs2 := by
  have hsorted : List.insertionSort strLe ((monthly_data txs).map Prod.fst) =
      List.insertionSort strLe ((monthly_data txs2).map Prod.fst) := by
    exact List.eq_of_perm_of_sorted
      ((List.perm_insertionSort strLe _).trans
        ((keys_monthly_data_perm h).trans (List.perm_insertionSort strLe _).symm))
      (List.sorted_insertionSort strLe _) (List.sorted_insertionSort strLe _)
  simp [sorted_months, hsorted]

theorem monthly_summary_perm {txs txs2 : List Transaction} (h : List.Perm txs txs2) :
    monthly_summary txs = monthly_summary txs2 := by
  rw [monthly_summary, monthly_summary, sorted_months_perm_inv h]
  apply List.map_congr_left
  intro k _
  rw [aggLookup_monthly_data, aggLookup_monthly_data, incSumFor_perm h, expSumFor_perm h]

/-- C9: the summary report is invariant under permutation of the
transaction list — equal rounded totals, the same category-breakdown
mapping (as a lookup function), the same monthly series, and the same
transaction count — so the retrieval order of the store is irrelevant. -/
theorem c9_permutation_invariance (txs txs2 : List Transaction)
    (h : List.Perm txs txs2) :
    (get_summary txs).total_income = (get_summary txs2).total_income ∧
    (get_summary txs).total_expense = (get_summary txs2).total_expense ∧
    (get_summary txs).balance = (get_summary txs2).balance ∧
    (∀ c, catLookup ((get_summary txs).category_spending) c =
        catLookup ((get_summary txs2).category_spending) c) ∧
    (get_summary txs).monthly_summary = (get_summary txs2).monthly_summary ∧
    (get_summary txs).transaction_count = (get_summary txs2).transaction_count := by
  refine ⟨?_, ?_, ?_, ?_, ?_, ?_⟩
  · simp [get_summary, total_income_perm h]
  · simp [get_summary, total_expense_perm h]
  · simp [get_summary, balance, total_income_perm h, total_expense_perm h]
  · intro c
    simp only [get_summary]
    rw [catLookup_category_spending, catLookup_category_spending, expenseSumFor_perm h]
  · simpa [get_summary] using monthly_summary_perm h
  · simpa [get_summary] using h.length_eq

/-- C9 witness: permutation invariance applied to a concrete two-element
transaction list and its transposition. -/
theorem c9_permutation_invariance_witness :
    (get_summary [exFood1, exIncome]).total_income =
      (get_summary [exIncome, exFood1]).total_income :=
  (c9_permutation_invariance [exFood1, exIncome] [exIncome, exFood1]
    (List.Perm.swap exIncome exFood1 [])).1

/-! ### Claim C10 -/

theorem sum_map_zero (keys : List String) : (keys.map fun _ => (0 : ℚ)).sum = 0 := by
  induction keys with
  | nil => simp
  | cons b keys ih => simp [ih]

theorem sum_map_add_distrib (keys : List String) (f g : String → ℚ) :
    (keys.map fun k => f k + g k).sum = (keys.map f).sum + (keys.map g).sum := by
  induction keys with
  | nil => simp
  | cons b keys ih =>
    simp only [List.map_cons, List.sum_cons, ih]
    ring

theorem sum_if_eq (keys : List String) (hnd : keys.Nodup) (a : String) (x : ℚ) :
    (keys.map fun k => if a = k then x else 0).sum = if a ∈ keys then x else 0 := by
  induction keys with
  | nil => simp
  | cons b keys ih =>
    simp only [List.nodup_cons] at hnd
    by_cases hab : a = b
    · subst hab
      simp [List.map_cons, List.sum_cons, ih hnd.2, hnd.1]
    · simp [List.map_cons, List.sum_cons, hab, ih hnd.2]

theorem sum_incSumFor (txs : List Transaction) (keys : List String)
    (hnd : keys.Nodup) (hcov : ∀ t ∈ txs, monthKey t.date ∈ keys) :
    (keys.map fun k => incSumFor txs k).sum = total_income txs := by
  induction txs with
  | nil =>
    have hz : (keys.map fun k => incSumFor [] k).sum = (keys.map fun _ => (0 : ℚ)).sum := rfl
    rw [hz, sum_map_zero]
    rfl
  | cons t txs ih =>
    have hmap : (keys.map fun k => incSumFor (t :: txs) k) =
        keys.map fun k =>
          (if t.kind = TxKind.income ∧ monthKey t.date = k then t.amount else 0) +
            incSumFor txs k :=
      List.map_congr_left fun k _ => incSumFor_cons t txs k
    rw [hmap, sum_map_add_distrib, ih fun u hu => hcov u (List.mem_cons_of_mem t hu),
      total_income_cons]
    congr 1
    by_cases hk : t.kind = TxKind.income
    · have hc : (fun k =>
          if t.kind = TxKind.income ∧ monthKey t.date = k then t.amount else 0) =
          fun k => if monthKey t.date = k then t.amount else 0 := by
        funext k
        simp [hk]
      rw [hc, sum_if_eq keys hnd, if_pos (hcov t (List.mem_cons_self t txs)), if_pos hk]
    · have hc : (fun k =>
          if t.kind = TxKind.income ∧ monthKey t.date = k then t.amount else 0) =
          fun _ => (0 : ℚ) := by
        funext k
        simp [hk]
      rw [hc, sum_map_zero, if_neg hk]

theorem sum_expSumFor (txs : List Transaction) (keys : List String)
    (hnd : keys.Nodup) (hcov : ∀ t ∈ txs, monthKey t.date ∈ keys) :
    (keys.map fun k => expSumFor txs k).sum = total_expense txs := by
  induction txs with
  | nil =>
    have hz : (keys.map fun k => expSumFor [] k).sum = (keys.map fun _ => (0 : ℚ)).sum := rfl
    rw [hz, sum_map_zero]
    rfl
  | cons t txs ih =>
    have hmap : (keys.map fun k => expSumFor (t :: txs) k) =
        keys.map fun k =>
          (if t.kind = TxKind.expense ∧ monthKey t.date = k then t.amount else 0) +
            expSumFor txs k :=
      List.map_congr_left fun k _ => expSumFor_cons t txs k
    rw [hmap, sum_map_add_distrib, ih fun u hu => hcov u (List.mem_cons_of_mem t hu),
      total_expense_cons]
    congr 1
    by_cases hk : t.kind = TxKind.expense
    · have hc : (fun k =>
          if t.kind = TxKind.expense ∧ monthKey t.date = k then t.amount else 0) =
          fun k => if monthKey t.date = k then t.amount else 0 := by
        funext k
        simp [hk]
      rw [hc, sum_if_eq keys hnd, if_pos (hcov t (List.mem_cons_self t txs)), if_pos hk]
    · have hc : (fun k =>
          if t.kind = TxKind.expense ∧ monthKey t.date = k then t.amount else 0) =
          fun _ => (0 : ℚ) := by
        funext k
        simp [hk]
      rw [hc, sum_map_zero, if_neg hk]

theorem keys_length_eq_month_count (txs : List Transaction) :
    ((monthly_data txs).map Prod.fst).length = month_count txs := by
  have hperm : List.Perm ((monthly_data txs).map Prod.fst)
      ((txs.map fun t => monthKey t.date).dedup) := by
    apply List.perm_of_nodup_nodup_toFinset_eq (nodup_keys_monthly_data txs)
      (List.nodup_dedup _)
    ext k
    rw [List.mem_toFinset, List.mem_toFinset, mem_keys_monthly_data, List.mem_dedup]
  simpa [month_count] using hperm.length_eq

theorem series_income_sum_eq (txs : List Transaction) :
    series_income_sum txs = ((sorted_months txs).map fun k => incSumFor txs k).sum := by
  rw [series_income_sum, monthly_summary, List.map_map]
  congr 1
  apply List.map_congr_left
  intro k _
  simp [Function.comp, aggLookup_monthly_data]

theorem series_expense_sum_eq (txs : List Transaction) :
    series_expense_sum txs = ((sorted_months txs).map fun k => expSumFor txs k).sum := by
  rw [series_expense_sum, monthly_summary, List.map_map]
  congr 1
  apply List.map_congr_left
  intro k _
  simp [Function.comp, aggLookup_monthly_data]

/-- C10: when the transactions span at most 12 distinct year-months, the
monthly series conserves both totals — its income values sum to the
unrounded total income and its expense values to the unrounded total
expense; with 13 distinct months the truncation to the last 12 makes the
series income sum strictly smaller than the total. -/
theorem c10_series_conservation (txs : List Transaction) (h : month_count txs ≤ 12) :
    series_income_sum txs = total_income txs ∧
    series_expense_sum txs = total_expense txs ∧
    12 < month_count ex13 ∧ series_income_sum ex13 < total_income ex13 := by
  have hkeys : ((monthly_data txs).map Prod.fst).length ≤ 12 := by
    rw [keys_length_eq_month_count]
    exact h
  have hperm := sorted_months_perm_of_le txs hkeys
  have hcov : ∀ t ∈ txs, monthKey t.date ∈ (monthly_data txs).map Prod.fst :=
    fun t ht => (mem_keys_monthly_data txs _).mpr (List.mem_map_of_mem _ ht)
  refine ⟨?_, ?_, ?_, ?_⟩
  · rw [series_income_sum_eq, (hperm.map _).sum_eq]
    exact sum_incSumFor txs _ (nodup_keys_monthly_data txs) hcov
  · rw [series_expense_sum_eq, (hperm.map _).sum_eq]
    exact sum_expSumFor txs _ (nodup_keys_monthly_data txs) hcov
  · decide
  · have htot : total_income ex13 = 13 := by
      norm_num [ex13, exM, total_income_cons, total_income_nil]
    have hk0 : monthKey ⟨2020, 1, 1⟩ = "2020-01" := by decide
    have hk1 : monthKey ⟨2021, 1, 1⟩ = "2021-01" := by decide
    have hk2 : monthKey ⟨2022, 1, 1⟩ = "2022-01" := by decide
    have hk3 : monthKey ⟨2023, 1, 1⟩ = "2023-01" := by decide
    have hk4 : monthKey ⟨2024, 1, 1⟩ = "2024-01" := by decide
    have hk5 : monthKey ⟨2025, 1, 1⟩ = "2025-01" := by decide
    have hk6 : monthKey ⟨2026, 1, 1⟩ = "2026-01" := by decide
    have hk7 : monthKey ⟨2027, 1, 1⟩ = "2027-01" := by decide
    have hk8 : monthKey ⟨2028, 1, 1⟩ = "2028-01" := by decide
    have hk9 : monthKey ⟨2029, 1, 1⟩ = "2029-01" := by decide
    have hk10 : monthKey ⟨2030, 1, 1⟩ = "2030-01" := by decide
    have hk11 : monthKey ⟨2031, 1, 1⟩ = "2031-01" := by decide
    have hk12 : monthKey ⟨2032, 1, 1⟩ = "2032-01" := by decide
    have hs0 : strLe "2020-01" "2021-01" := by decide
    have hs1 : strLe "2021-01" "2022-01" := by decide
    have hs2 : strLe "2022-01" "2023-01" := by decide
    have hs3 : strLe "2023-01" "2024-01" := by decide
    have hs4 : strLe "2024-01" "2025-01" := by decide
    have hs5 : strLe "2025-01" "2026-01" := by decide
    have hs6 : strLe "2026-01" "2027-01" := by decide
    have hs7 : strLe "2027-01" "2028-01" := by decide
    have hs8 : strLe "2028-01" "2029-01" := by decide
    have hs9 : strLe "2029-01" "2030-01" := by decide
    have hs10 : strLe "2030-01" "2031-01" := by decide
    have hs11 : strLe "2031-01" "2032-01" := by decide
    have hsorted : sorted_months ex13 =
        ["2021-01", "2022-01", "2023-01", "2024-01", "2025-01", "2026-01", "2027-01",
         "2028-01", "2029-01", "2030-01", "2031-01", "2032-01"] := by
      simp [sorted_months, monthly_data, ex13, exM, insertMonth,
        hk0, hk1, hk2, hk3, hk4, hk5, hk6, hk7, hk8, hk9, hk10, hk11, hk12,
        hs0, hs1, hs2, hs3, hs4, hs5, hs6, hs7, hs8, hs9, hs10, hs11,
        List.foldl, List.insertionSort, List.orderedInsert]
    have hms : monthly_summary ex13 =
        [("2021-01", ⟨1, 0⟩), ("2022-01", ⟨1, 0⟩), ("2023-01", ⟨1, 0⟩), ("2024-01", ⟨1, 0⟩),
         ("2025-01", ⟨1, 0⟩), ("2026-01", ⟨1, 0⟩), ("2027-01", ⟨1, 0⟩), ("2028-01", ⟨1, 0⟩),
         ("2029-01", ⟨1, 0⟩), ("2030-01", ⟨1, 0⟩), ("2031-01", ⟨1, 0⟩), ("2032-01", ⟨1, 0⟩)] := by
      rw [monthly_summary, hsorted]
      norm_num [monthly_data, ex13, exM, insertMonth, aggLookup, bumpAgg,
        hk0, hk1, hk2, hk3, hk4, hk5, hk6, hk7, hk8, hk9, hk10, hk11, hk12,
        List.foldl, Prod.mk.injEq, MonthAgg.mk.injEq]
    have hsum : series_income_sum ex13 = 12 := by
      rw [series_income_sum, hms]
      norm_num
    rw [hsum, htot]
    norm_num

/-- C10 witness: conservation applied to a concrete one-transaction list
spanning a single month. -/
theorem c10_series_conservation_witness :
    month_count [exIncome] ≤ 12 ∧
    series_income_sum [exIncome] = total_income [exIncome] :=
  ⟨by decide, (c10_series_conservation [exIncome] (by decide)).1⟩

end FinanceTracker
